import Mathlib

/-!
Verification of the browser-session authentication bridge of the
media-ingest (mingest) repository, as a shallow embedding in Lean 4.

Go strings are modelled as `List Char` (accessed via `gs` from Lean string
literals).  `strings.ToLower` is modelled on the ASCII range (all strings
relevant to the cookie subsystem are ASCII), `strings.TrimSpace` trims the
white-space code points recognised by Go's `unicode.IsSpace` for Latin-1.
Byte slices are modelled as `List Nat` whose members are below 256 where it
matters.  File-system and network side effects are modelled by returning the
data that the Go code would write (lines of the cookie file, bytes of a
WebSocket frame, event traces of the auth orchestrator).
-/

/-- Chars of a Lean string literal, used to write Go string values. -/
def gs (s : String) : List Char := s.data

/-- ASCII/Latin-1 part of Go `unicode.IsSpace`, which backs
`strings.TrimSpace`: space, tab, newline, vertical tab, form feed,
carriage return, NEL (U+0085) and NBSP (U+00A0). -/
def goIsSpace (c : Char) : Bool :=
  c.toNat == 32 || c.toNat == 9 || c.toNat == 10 || c.toNat == 11 ||
  c.toNat == 12 || c.toNat == 13 || c.toNat == 133 || c.toNat == 160

/-- Go `strings.TrimSpace`: drop leading and trailing white space. -/
def goTrim (s : List Char) : List Char :=
  ((s.dropWhile goIsSpace).reverse.dropWhile goIsSpace).reverse

/-- Go `strings.ToLower` (ASCII model): `A`..`Z` map to `a`..`z`, other
characters are kept (`Char.toLower` is exactly this ASCII fold). -/
def goToLower (s : List Char) : List Char := s.map Char.toLower

/-- Go `strings.HasPrefix`. -/
def goStartsWith (s pre : List Char) : Bool := pre.isPrefixOf s

/-- Go `strings.HasSuffix`. -/
def goEndsWith (s suf : List Char) : Bool := suf.isSuffixOf s

/-- Go `strings.TrimPrefix`: drop `pre` from the front of `s` when present. -/
def goTrimPrefixStr (s pre : List Char) : List Char :=
  if pre.isPrefixOf s then s.drop pre.length else s

/-- `videoPlatform` from `ingest/video_platform.go` (per-site configuration). -/
structure videoPlatform where
  ID : List Char
  Name : List Char
  MatchHosts : List (List Char)
  LoginURL : List Char
  CookieDomainSuffixes : List (List Char)
  AuthCookieNames : List (List Char)
deriving DecidableEq

/-- Body of `videoPlatform.AllowsCookieDomain` (video_platform.go:67-87),
parameterised by the configured suffix list. -/
def allowsCookieDomain (suffixes : List (List Char)) (domain : List Char) : Bool :=
  -- If not configured, don't filter.
  if suffixes.isEmpty then true
  else
    let d := goTrimPrefixStr (goToLower (goTrim domain)) (gs ".")
    if d = [] then false
    else suffixes.any fun s =>
      let ss := goToLower (goTrim s)
      if ss = [] then false
      else d == ss || goEndsWith d (gs "." ++ ss)

/-- `videoPlatform.AllowsCookieDomain` from video_platform.go:67-87. -/
def videoPlatform.AllowsCookieDomain (p : videoPlatform) (domain : List Char) : Bool :=
  allowsCookieDomain p.CookieDomainSuffixes domain

/-- `chromeCookie` from `ingest/cdp_chrome.go`.  `Expires` is CDP's epoch
seconds; Chrome reports `-1` for session cookies, so `≤ 0` means "session
cookie".  The Go field is a `float64` holding an integral epoch-second count;
it is modelled as `Int`. -/
structure chromeCookie where
  Name : List Char
  Value : List Char
  Domain : List Char
  Path : List Char
  Expires : Int
  Secure : Bool
deriving DecidableEq

/-- `looksLikeLoggedIn` from cdp_chrome.go:271-286. -/
def looksLikeLoggedIn (cookies : List chromeCookie) (platform : videoPlatform) : Bool :=
  if platform.AuthCookieNames.isEmpty then false
  else cookies.any fun c =>
    platform.AllowsCookieDomain c.Domain &&
      platform.AuthCookieNames.any fun want => c.Name == want && !(c.Value == [])

/-- The `expires` column of one Netscape record (cdp_chrome.go:315-322):
empty for a session cookie (`Expires ≤ 0`), decimal integer otherwise. -/
def expiresField (c : chromeCookie) : List Char :=
  if 0 < c.Expires then gs (toString c.Expires) else []

/-- One tab-separated record of the Netscape cookie file
(cdp_chrome.go:302-326), without the trailing newline. -/
def recordLine (c : chromeCookie) : List Char :=
  let includeSubdomains := if goStartsWith c.Domain (gs ".") then gs "TRUE" else gs "FALSE"
  let secure := if c.Secure then gs "TRUE" else gs "FALSE"
  List.intercalate (gs "\t")
    [c.Domain, includeSubdomains, c.Path, secure, expiresField c, c.Name, c.Value]

/-- The cookie loop of `writeNetscapeCookieFile` (cdp_chrome.go:298-327):
skip cookies rejected by `allowDomain`, skip cookies whose trimmed domain is
empty, emit one record for the rest. -/
def writeCookieLines : List chromeCookie → (List Char → Bool) → List (List Char)
  | [], _ => []
  | c :: rest, allowDomain =>
    if !(allowDomain c.Domain) then writeCookieLines rest allowDomain
    else if goTrim c.Domain == [] then writeCookieLines rest allowDomain
    else recordLine c :: writeCookieLines rest allowDomain

/-- `writeNetscapeCookieFile` from cdp_chrome.go:288-330, modelled as the
list of lines written to the file (every call site passes a non-nil
`allowDomain`). -/
def writeNetscapeCookieFile (cookies : List chromeCookie)
    (allowDomain : List Char → Bool) : List (List Char) :=
  gs "# Netscape HTTP Cookie File" ::
  gs "# This file was generated by mingest. DO NOT EDIT." ::
  writeCookieLines cookies allowDomain

/-- Big-endian 2-byte encoding (`binary.BigEndian.PutUint16`,
cdp_chrome.go:644-645). -/
def putUint16 (n : Nat) : List Nat := [n / 256 % 256, n % 256]

/-- Big-endian 8-byte encoding (`binary.BigEndian.PutUint64`,
cdp_chrome.go:649-650). -/
def putUint64 (n : Nat) : List Nat :=
  [n / 2 ^ 56 % 256, n / 2 ^ 48 % 256, n / 2 ^ 40 % 256, n / 2 ^ 32 % 256,
   n / 2 ^ 24 % 256, n / 2 ^ 16 % 256, n / 2 ^ 8 % 256, n % 256]

/-- Big-endian decoding of a byte list (`binary.BigEndian.Uint16` /
`Uint64`). -/
def beUint (bs : List Nat) : Nat := bs.foldl (fun acc b => acc * 256 + b) 0

/-- XOR a byte list with the repeating 4-byte mask key, starting at byte
index `i` (the masking loops of cdp_chrome.go:660-663 and 716-720). -/
def maskBytes (maskKey : List Nat) : Nat → List Nat → List Nat
  | _, [] => []
  | i, b :: rest => (b ^^^ maskKey.getD (i % 4) 0) :: maskBytes maskKey (i + 1) rest

/-- `wsConn.writeFrame` from cdp_chrome.go:633-670, modelled as the bytes
written to the socket; the random 4-byte mask key is an explicit input.
Client-to-server frames must be masked: header byte 2 always carries the
mask bit `0x80`. -/
def writeFrame (opcode : Nat) (maskKey : List Nat) (payload : List Nat) : List Nat :=
  let n := payload.length
  let header :=
    if n ≤ 125 then [0x80 ||| opcode, 0x80 ||| n]
    else if n ≤ 65535 then [0x80 ||| opcode, 0x80 ||| 126] ++ putUint16 n
    else [0x80 ||| opcode, 0x80 ||| 127] ++ putUint64 n
  header ++ maskKey ++ maskBytes maskKey 0 payload

/-- Read exactly `n` bytes from the stream (`io.ReadFull`). -/
def readBytes : Nat → List Nat → Option (List Nat × List Nat)
  | 0, s => some ([], s)
  | _ + 1, [] => none
  | n + 1, b :: rest =>
    match readBytes n rest with
    | some (bs, r) => some (b :: bs, r)
    | none => none

/-- `wsConn.readFrame` from cdp_chrome.go:672-723, modelled on a byte
stream: returns the opcode, the (unmasked-iff-mask-bit-set) payload and the
rest of the stream; `none` models a read error or the oversized-payload
rejection. -/
def readFrame (stream : List Nat) : Option (Nat × List Nat × List Nat) :=
  match stream with
  | b0 :: b1 :: rest =>
    let opcode := b0 &&& 0x0f
    let mask := b1 &&& 0x80 != 0
    let payloadLen0 := b1 &&& 0x7f
    let lenResolved : Option (Nat × List Nat) :=
      if payloadLen0 = 126 then
        match readBytes 2 rest with
        | some (ext, r) => some (beUint ext, r)
        | none => none
      else if payloadLen0 = 127 then
        match readBytes 8 rest with
        | some (ext, r) =>
          if beUint ext > 10 * 1024 * 1024 then none else some (beUint ext, r)
        | none => none
      else some (payloadLen0, rest)
    match lenResolved with
    | none => none
    | some (payloadLen, r1) =>
      let keyRead := if mask then readBytes 4 r1 else some ([], r1)
      match keyRead with
      | none => none
      | some (maskKey, r2) =>
        match readBytes payloadLen r2 with
        | none => none
        | some (payload, r3) =>
          some (opcode, (if mask then maskBytes maskKey 0 payload else payload), r3)
  | _ => none

/-- One incoming text frame as seen by `cdpClient.Call` after
`json.Unmarshal` into the generic envelope (cdp_chrome.go:508-517):
either the unmarshal failed, or it produced an envelope.  A missing `id`
field unmarshals to the Go zero value `0` (call ids start at 1). -/
inductive cdpMessage where
  | unparsable
  | envelope (id : Nat) (error : Option (List Char)) (result : Option (List Char))
deriving DecidableEq

/-- Outcome of `cdpClient.Call` (cdp_chrome.go:488-531). -/
inductive callResult where
  | transportErr
  | callErr (msg : List Char)
  | ok (result : Option (List Char))
deriving DecidableEq

/-- The reply loop of `cdpClient.Call` (cdp_chrome.go:503-530) reading the
given stream of already-written text frames while awaiting `id`:
unparsable frames and envelopes with a different id are skipped; the first
envelope with the awaited id yields `method: message` on a present error
field, its raw `result` otherwise.  An exhausted stream models a transport
read error. -/
def cdpCall (method : List Char) (id : Nat) : List cdpMessage → callResult
  | [] => .transportErr
  | .unparsable :: rest => cdpCall method id rest
  | .envelope i err res :: rest =>
    if i ≠ id then cdpCall method id rest
    else
      match err with
      | some m => .callErr (method ++ gs ": " ++ m)
      | none => .ok res

/-- Exit codes from cli.go:44-53. -/
def exitOK : Nat := 0

/-- Exit code 20: authentication required. -/
def exitAuthRequired : Nat := 20

/-- Exit code 21: cookie/session problem. -/
def exitCookieProblem : Nat := 21

/-- Exit code 40: generic download failure. -/
def exitDownloadFailed : Nat := 40

/-- `shouldTryNextAuth` from cli.go:1322-1324. -/
def shouldTryNextAuth (code : Nat) : Bool :=
  code == exitAuthRequired || code == exitCookieProblem

/-- `authKind` from cli.go (only one variant exists). -/
inductive authKind where
  | browser
deriving DecidableEq

/-- `authSource` from cli.go:79. -/
structure authSource where
  Kind : authKind
  Value : List Char
deriving DecidableEq

/-- Identity of a temporary cookie jar: the per-source temp jar of loop
iteration `i` in `runWithAuthFallback`, or the temp jar written by the CDP
fallback started from iteration `i`. -/
inductive jarId where
  | srcTemp (i : Nat)
  | cdpTemp (i : Nat)
deriving DecidableEq

/-- Observable events of one `runWithAuthFallback` run, in program order. -/
inductive authEvent where
  | cachedAttempt (code : Nat)
  | sourceAttempt (i : Nat) (browser : List Char) (code : Nat)
  | cdpAttempt (i : Nat) (code : Nat)
  | createTempJar (j : jarId)
  | heuristicCheck (j : jarId) (ok : Bool)
  | promoteCache (j : jarId)
deriving DecidableEq

/-- Environment of one `tryDownloadWithChromeCDP` call: outcomes of the
IO-dependent steps.  `chromeFound = false` models `findChromeExecutable`
returning its "Chrome not found" error (BrowserNotFound). -/
structure cdpEnv where
  chromeFound : Bool
  profileDirOk : Bool
  exportOk : Bool
  cookies : List chromeCookie
  downloadCode : Nat

/-- `tryDownloadWithChromeCDP` from cdp_chrome.go:86-120, as exit code plus
event trace.  A missing Chrome executable, an undeterminable profile dir and
a failed export all return `exitCookieProblem`; otherwise the temp jar is
written by `exportCookiesFromChromeCDP`, `looksLikeLoggedIn` gates both the
early `exitAuthRequired` return and the subsequent best-effort refresh of
the persistent cache file. -/
def tryDownloadWithChromeCDP (platform : videoPlatform) (cookieCacheFile : List Char)
    (env : cdpEnv) (j : jarId) : Nat × List authEvent :=
  if !env.chromeFound then (exitCookieProblem, [])
  else if !env.profileDirOk then (exitCookieProblem, [])
  else if !env.exportOk then (exitCookieProblem, [])
  else
    let auth := looksLikeLoggedIn env.cookies platform
    let tr := [authEvent.createTempJar j, authEvent.heuristicCheck j auth]
    if !auth then (exitAuthRequired, tr)
    else
      let tr := if goTrim cookieCacheFile ≠ [] then tr ++ [authEvent.promoteCache j] else tr
      (env.downloadCode, tr)

/-- Environment of one `runWithAuthFallback` run: outcomes of the
IO-dependent steps, indexed by loop iteration where needed. -/
structure fallbackEnv where
  cookieFile : List Char
  cachedRunCode : Nat
  tempCreateOk : Nat → Bool
  runCode : Nat → Nat
  tmpFileExists : Nat → Bool
  tmpFilterOk : Nat → Bool
  tmpAuthResult : Nat → Option Bool
  cdp : Nat → cdpEnv

/-- The filter / looks-authenticated / promote block of one source
iteration (cli.go:1250-1259): when a temp jar was created, still exists
after the run and a cache path is configured, a successful filter is
followed by the authenticated-heuristic check, and only a `true` heuristic
result leads to the promotion copy onto the persistent cache. -/
def srcPromoTrace (env : fallbackEnv) (i : Nat) (tempCreated : Bool) : List authEvent :=
  if tempCreated && env.tmpFileExists i && !(goTrim env.cookieFile == []) then
    if env.tmpFilterOk i then
      match env.tmpAuthResult i with
      | some true => [authEvent.heuristicCheck (jarId.srcTemp i) true,
                      authEvent.promoteCache (jarId.srcTemp i)]
      | some false => [authEvent.heuristicCheck (jarId.srcTemp i) false]
      | none => []
    else []
  else []

/-- The events of one source iteration up to the CDP fallback decision:
temp-jar creation (cli.go:1235-1245), the yt-dlp run, and the promotion
block. -/
def srcIterTrace (env : fallbackEnv) (src : authSource) (i : Nat) : List authEvent :=
  let useTemp := !(goTrim env.cookieFile == []) && src.Kind == authKind.browser
  let tempCreated := useTemp && env.tempCreateOk i
  (if tempCreated then [authEvent.createTempJar (jarId.srcTemp i)] else []) ++
  [authEvent.sourceAttempt i src.Value (env.runCode i)] ++
  srcPromoTrace env i tempCreated

/-- The source loop of `runWithAuthFallback` (cli.go:1222-1319), one
recursive step per configured source.  Mirrors the Go control flow: temp
jar creation for browser sources when a cache path is configured, the
yt-dlp run, the filter/heuristic/promote block, the Chrome-CDP fallback for
the `chrome` source on a retryable code, and the `continue`/`break`
decision feeding the post-loop `shouldTryNextAuth lastCode` check. -/
def fallbackLoop (platform : videoPlatform) (env : fallbackEnv) :
    List authSource → Nat → Nat → Nat × List authEvent
  | [], _, lastCode =>
    (if shouldTryNextAuth lastCode then exitAuthRequired else lastCode, [])
  | src :: rest, i, _ =>
    let code := env.runCode i
    let tr2 := srcIterTrace env src i
    if code = exitOK then (exitOK, tr2)
    else if src.Kind = authKind.browser ∧ src.Value = gs "chrome" ∧
        shouldTryNextAuth code = true then
      let r := tryDownloadWithChromeCDP platform env.cookieFile (env.cdp i) (jarId.cdpTemp i)
      let trc := tr2 ++ authEvent.cdpAttempt i r.1 :: r.2
      if r.1 = exitOK then (exitOK, trc)
      else
        let code2 := if r.1 = exitAuthRequired then exitAuthRequired
          else if r.1 = exitCookieProblem then exitCookieProblem else code
        if rest ≠ [] ∧ shouldTryNextAuth code2 = true then
          let rec' := fallbackLoop platform env rest (i + 1) code2
          (rec'.1, trc ++ rec'.2)
        else (if shouldTryNextAuth code2 then exitAuthRequired else code2, trc)
    else
      if rest ≠ [] ∧ shouldTryNextAuth code = true then
        let rec' := fallbackLoop platform env rest (i + 1) code
        (rec'.1, tr2 ++ rec'.2)
      else (if shouldTryNextAuth code then exitAuthRequired else code, tr2)

/-- `runWithAuthFallback` from cli.go:1198-1320, as exit code plus event
trace: the cached-cookie fast path first (when a cache path is configured),
then the source loop. -/
def runWithAuthFallback (platform : videoPlatform) (env : fallbackEnv)
    (sources : List authSource) : Nat × List authEvent :=
  let sourcePhase :=
    if sources.isEmpty then (exitAuthRequired, ([] : List authEvent))
    else fallbackLoop platform env sources 0 exitDownloadFailed
  if goTrim env.cookieFile ≠ [] then
    let code := env.cachedRunCode
    if code = exitOK then (exitOK, [authEvent.cachedAttempt code])
    else if !shouldTryNextAuth code then (code, [authEvent.cachedAttempt code])
    else (sourcePhase.1, authEvent.cachedAttempt code :: sourcePhase.2)
  else sourcePhase

/-- Projection of a trace to its attempt sequence. -/
inductive attemptKind where
  | cached (code : Nat)
  | src (browser : List Char) (code : Nat)
  | cdp (code : Nat)
deriving DecidableEq

/-- Keep only the cached / per-source / CDP attempt markers of a trace. -/
def attemptsOf (tr : List authEvent) : List attemptKind :=
  tr.filterMap fun e =>
    match e with
    | .cachedAttempt code => some (.cached code)
    | .sourceAttempt _ browser code => some (.src browser code)
    | .cdpAttempt _ code => some (.cdp code)
    | _ => none

/-- Scan a trace and check that every cache promotion of jar `j` is
preceded by the creation of temp jar `j` and by an authenticated-heuristic
check of jar `j` that returned `true`. -/
def promotionsGuarded (temps oks : List jarId) : List authEvent → Bool
  | [] => true
  | e :: rest =>
    match e with
    | .createTempJar j => promotionsGuarded (j :: temps) oks rest
    | .heuristicCheck j true => promotionsGuarded temps (j :: oks) rest
    | .promoteCache j =>
      decide (j ∈ temps) && decide (j ∈ oks) && promotionsGuarded temps oks rest
    | _ => promotionsGuarded temps oks rest

/-- Temp-jar ids created along a trace, accumulated onto `temps`. -/
def tempsAfter (temps : List jarId) : List authEvent → List jarId
  | [] => temps
  | .createTempJar j :: rest => tempsAfter (j :: temps) rest
  | _ :: rest => tempsAfter temps rest

/-- Jar ids whose heuristic check returned true along a trace. -/
def oksAfter (oks : List jarId) : List authEvent → List jarId
  | [] => oks
  | .heuristicCheck j true :: rest => oksAfter (j :: oks) rest
  | _ :: rest => oksAfter oks rest

/-- A concrete platform value (shaped like the YouTube entry of
`supportedPlatforms`) used to instantiate the orchestrator theorems. -/
def ytPlatform : videoPlatform :=
  ⟨gs "youtube", gs "YouTube", [gs "youtube.com", gs "youtu.be"],
   gs "https://accounts.google.com/", [gs "youtube.com"], [gs "SAPISID"]⟩

/-- A CDP environment in which `findChromeExecutable` fails
(BrowserNotFound). -/
def cdpEnvNoChrome : cdpEnv := ⟨false, true, true, [], exitDownloadFailed⟩

/-- A fallback environment with no cookie cache in which every yt-dlp run
reports "authentication required" and the CDP fallback cannot find Chrome. -/
def envAllRetryable : fallbackEnv :=
  ⟨[], exitOK, fun _ => true, fun _ => exitAuthRequired, fun _ => false,
   fun _ => true, fun _ => some false, fun _ => cdpEnvNoChrome⟩

/-- A fallback environment with no cookie cache whose chrome run reports
"authentication required", whose CDP fallback cannot find Chrome
(BrowserNotFound), and whose firefox run fails terminally. -/
def envChromeNotFound : fallbackEnv :=
  ⟨[], exitOK, fun _ => true, fun i => if i = 0 then exitAuthRequired else exitDownloadFailed,
   fun _ => false, fun _ => true, fun _ => some false, fun _ => cdpEnvNoChrome⟩

/-! Helper lemmas on characters and Go-style strings. -/

/-- Valid code points round-trip through `Char.ofNat`. -/
theorem toNat_ofNat_lt (n : Nat) (h : n < 55296) : (Char.ofNat n).toNat = n := by
  simp [Char.ofNat, Char.toNat, Nat.isValidChar, h, Char.ofNatAux, UInt32.toNat]

/-- Arithmetic description of the ASCII case fold. -/
theorem toLower_toNat (c : Char) :
    (Char.toLower c).toNat = if 65 ≤ c.toNat ∧ c.toNat ≤ 90 then c.toNat + 32 else c.toNat := by
  unfold Char.toLower
  split <;> rename_i h
  · show (if c.toNat ≥ 65 ∧ c.toNat ≤ 90 then Char.ofNat (c.toNat + 32) else c).toNat
      = c.toNat + 32
    rw [if_pos ⟨h.1, h.2⟩, toNat_ofNat_lt _ (by omega)]
  · show (if c.toNat ≥ 65 ∧ c.toNat ≤ 90 then Char.ofNat (c.toNat + 32) else c).toNat = c.toNat
    rw [if_neg (by omega)]

/-- Characters with equal code points are equal. -/
theorem charToNat_inj {a b : Char} (h : a.toNat = b.toNat) : a = b :=
  Char.ext (UInt32.ext h)

/-- The ASCII case fold is idempotent. -/
theorem toLower_toLower (c : Char) : c.toLower.toLower = c.toLower := by
  apply charToNat_inj
  rw [toLower_toNat, toLower_toNat]
  split_ifs <;> omega

/-- Case folding does not create or destroy white space. -/
theorem goIsSpace_toLower (c : Char) : goIsSpace c.toLower = goIsSpace c := by
  simp only [goIsSpace, toLower_toNat]
  split_ifs with h
  · rw [Bool.eq_iff_iff]
    simp only [Bool.or_eq_true, beq_iff_eq]
    omega
  · rfl

/-- Case folding never yields a `'.'`. -/
theorem toLower_ne_dot {c : Char} (h : c ≠ '.') : c.toLower ≠ '.' := by
  intro hc
  apply h
  apply charToNat_inj
  have := toLower_toNat c
  rw [hc] at this
  have hdot : ('.' : Char).toNat = 46 := rfl
  rw [hdot] at this ⊢
  split_ifs at this <;> omega

/-- `dropWhile` commutes with `map` when the predicate is invariant. -/
theorem dropWhile_map_invariant (f : Char → Char) (p : Char → Bool)
    (hp : ∀ c, p (f c) = p c) (l : List Char) :
    (l.map f).dropWhile p = (l.dropWhile p).map f := by
  induction l with
  | nil => rfl
  | cons c rest ih =>
    simp only [List.map_cons, List.dropWhile_cons, hp c]
    split <;> simp [ih]

/-- Trimming commutes with case folding. -/
theorem goTrim_goToLower (s : List Char) : goTrim (goToLower s) = goToLower (goTrim s) := by
  unfold goTrim goToLower
  rw [dropWhile_map_invariant _ _ goIsSpace_toLower, ← List.map_reverse,
    dropWhile_map_invariant _ _ goIsSpace_toLower, ← List.map_reverse]

/-- Case folding is idempotent on strings. -/
theorem goToLower_goToLower (s : List Char) : goToLower (goToLower s) = goToLower s := by
  unfold goToLower
  rw [List.map_map]
  exact List.map_congr_left fun c _ => toLower_toLower c

/-- The cookie loop keeps exactly the cookies that pass the domain filter
and have a non-empty trimmed domain. -/
theorem writeCookieLines_eq (cookies : List chromeCookie) (allowDomain : List Char → Bool) :
    writeCookieLines cookies allowDomain =
      (cookies.filter fun c => allowDomain c.Domain && !(goTrim c.Domain == [])).map recordLine := by
  induction cookies with
  | nil => rfl
  | cons c rest ih =>
    simp only [writeCookieLines, List.filter_cons]
    by_cases h1 : allowDomain c.Domain
    · by_cases h2 : goTrim c.Domain = []
      · simp [h1, h2, ih]
      · simp [h1, h2, ih]
    · simp [h1, ih]

/-- C7: `looksLikeLoggedIn(cookies, platform)` returns true iff some cookie
passes the platform's cookie-domain filter, bears one of the platform's
authenticated-cookie names and has a non-empty value; the SAPISID example
with a non-empty value yields true, with an empty value false. -/
theorem c7_looksLikeLoggedIn_characterization :
    (∀ (cookies : List chromeCookie) (p : videoPlatform),
      looksLikeLoggedIn cookies p = true ↔
        ∃ c, c ∈ cookies ∧ p.AllowsCookieDomain c.Domain = true ∧
          c.Name ∈ p.AuthCookieNames ∧ c.Value ≠ [])
    ∧ looksLikeLoggedIn
        [⟨gs "SAPISID", gs "x", gs "google.com", gs "/", -1, false⟩]
        ⟨gs "google", gs "Google", [], [], [gs "google.com"], [gs "SAPISID"]⟩ = true
    ∧ looksLikeLoggedIn
        [⟨gs "SAPISID", [], gs "google.com", gs "/", -1, false⟩]
        ⟨gs "google", gs "Google", [], [], [gs "google.com"], [gs "SAPISID"]⟩ = false := by
  refine ⟨fun cookies p => ?_, by decide, by decide⟩
  unfold looksLikeLoggedIn
  split
  · rename_i h
    rw [List.isEmpty_iff] at h
    simp [h]
  · rename_i h
    simp only [List.any_eq_true, Bool.and_eq_true, beq_iff_eq, Bool.not_eq_true',
      beq_eq_false_iff_ne, ne_eq]
    constructor
    · rintro ⟨c, hc, hallow, w, hw, hname, hval⟩
      exact ⟨c, hc, hallow, hname ▸ hw, hval⟩
    · rintro ⟨c, hc, hallow, hname, hval⟩
      exact ⟨c, hc, hallow, c.Name, hname, rfl, hval⟩

/-- C8 counterexample: a cookie with an empty domain passes the trivial
domain filter of a platform with no configured suffixes, yet
`writeNetscapeCookieFile` writes no record for it (cdp_chrome.go:303-305),
so "exactly one record per cookie that passes the domain filter" fails. -/
theorem c8_counterexample_empty_domain :
    ([(⟨gs "n", gs "v", [], gs "/", 0, false⟩ : chromeCookie)].filter
        (fun c => allowsCookieDomain [] c.Domain)).length = 1
    ∧ ((writeNetscapeCookieFile [⟨gs "n", gs "v", [], gs "/", 0, false⟩]
        (allowsCookieDomain [])).drop 2).length = 0 := by
  constructor <;> decide

/-- C8 (amended): the written file is exactly the two Netscape header
comment lines followed by one tab-separated record per cookie that passes
the domain filter AND has a non-empty domain after white-space trimming;
each record lists domain, includeSubdomains (TRUE iff the domain starts
with a dot), path, secure, expires, name, value in that order; the
youtube.com/adnetwork.example instance produces exactly one record. -/
theorem c8_writeNetscapeCookieFile_shape :
    (∀ (cookies : List chromeCookie) (allowDomain : List Char → Bool),
      writeNetscapeCookieFile cookies allowDomain =
        gs "# Netscape HTTP Cookie File" ::
        gs "# This file was generated by mingest. DO NOT EDIT." ::
        (cookies.filter fun c => allowDomain c.Domain && !(goTrim c.Domain == [])).map recordLine)
    ∧ (∀ c : chromeCookie,
      recordLine c = List.intercalate (gs "\t")
        [c.Domain, (if goStartsWith c.Domain (gs ".") then gs "TRUE" else gs "FALSE"),
         c.Path, (if c.Secure then gs "TRUE" else gs "FALSE"), expiresField c,
         c.Name, c.Value])
    ∧ ((writeNetscapeCookieFile
          [⟨gs "a", gs "v", gs "youtube.com", gs "/", 1, false⟩,
           ⟨gs "b", gs "w", gs "adnetwork.example", gs "/", 1, false⟩]
          (allowsCookieDomain [gs "youtube.com"])).drop 2).length = 1 := by
  refine ⟨fun cookies allowDomain => ?_, fun c => rfl, by decide⟩
  unfold writeNetscapeCookieFile
  rw [writeCookieLines_eq]

/-- C10: with no configured cookie-domain suffixes `AllowsCookieDomain`
accepts every domain including the empty string, so the jar writer applies
no domain filtering (only its own empty-domain skip); with a non-empty
suffix list a domain that trims to empty never matches. -/
theorem c10_empty_suffix_list_behavior :
    (∀ (p : videoPlatform) (domain : List Char), p.CookieDomainSuffixes = [] →
      p.AllowsCookieDomain domain = true)
    ∧ (∀ (p : videoPlatform) (domain : List Char), p.CookieDomainSuffixes ≠ [] →
      goTrim domain = [] → p.AllowsCookieDomain domain = false)
    ∧ (∀ (p : videoPlatform) (cookies : List chromeCookie), p.CookieDomainSuffixes = [] →
      writeNetscapeCookieFile cookies p.AllowsCookieDomain =
        gs "# Netscape HTTP Cookie File" ::
        gs "# This file was generated by mingest. DO NOT EDIT." ::
        (cookies.filter fun c => !(goTrim c.Domain == [])).map recordLine) := by
  refine ⟨fun p domain h => ?_, fun p domain h htrim => ?_, fun p cookies h => ?_⟩
  · simp [videoPlatform.AllowsCookieDomain, allowsCookieDomain, h]
  · have hne : ¬ p.CookieDomainSuffixes.isEmpty := by
      simpa [List.isEmpty_iff] using h
    simp only [videoPlatform.AllowsCookieDomain, allowsCookieDomain, hne, Bool.false_eq_true,
      if_false, htrim]
    rfl
  · unfold writeNetscapeCookieFile
    rw [writeCookieLines_eq]
    congr 2
    apply congrArg
    apply List.filter_congr
    intro c _
    simp [videoPlatform.AllowsCookieDomain, allowsCookieDomain, h]

/-- C1: every record that `writeNetscapeCookieFile` writes comes from a
cookie of the input list, and its expires column is the empty string —
never `"0"`, never a minus-sign form — when that cookie's expires is ≤ 0
(session cookie), and the decimal integer form of the value when it is
positive. -/
theorem c1_session_cookie_expires_serialization :
    ∀ (cookies : List chromeCookie) (allowDomain : List Char → Bool) (line : List Char),
      line ∈ (writeNetscapeCookieFile cookies allowDomain).drop 2 →
      ∃ c, c ∈ cookies ∧ line = recordLine c
        ∧ (c.Expires ≤ 0 →
            expiresField c = [] ∧ expiresField c ≠ gs "0" ∧ ∀ s, expiresField c ≠ '-' :: s)
        ∧ (0 < c.Expires → expiresField c = gs (toString c.Expires)) := by
  intro cookies allowDomain line hmem
  simp only [writeNetscapeCookieFile, List.drop_succ_cons, List.drop_zero,
    writeCookieLines_eq, List.mem_map, List.mem_filter] at hmem
  obtain ⟨c, ⟨hc, _⟩, hline⟩ := hmem
  refine ⟨c, hc, hline.symm, fun hle => ?_, fun hpos => ?_⟩
  · have h0 : ¬ 0 < c.Expires := by omega
    refine ⟨by simp [expiresField, h0], by simp [expiresField, h0, gs], ?_⟩
    intro s
    simp [expiresField, h0]
  · simp [expiresField, hpos]

/-- C1 witness: the theorem applied to a concrete one-cookie jar whose
cookie is a session cookie (`Expires = -1`). -/
theorem c1_session_cookie_expires_serialization_witness :
    (recordLine ⟨gs "SID", gs "v", gs "a.com", gs "/", -1, false⟩ ∈
      (writeNetscapeCookieFile [⟨gs "SID", gs "v", gs "a.com", gs "/", -1, false⟩]
        (fun _ => true)).drop 2)
    ∧ ∃ c, c ∈ [(⟨gs "SID", gs "v", gs "a.com", gs "/", -1, false⟩ : chromeCookie)]
        ∧ recordLine ⟨gs "SID", gs "v", gs "a.com", gs "/", -1, false⟩ = recordLine c
        ∧ (c.Expires ≤ 0 →
            expiresField c = [] ∧ expiresField c ≠ gs "0" ∧ ∀ s, expiresField c ≠ '-' :: s)
        ∧ (0 < c.Expires → expiresField c = gs (toString c.Expires)) :=
  ⟨by decide,
   c1_session_cookie_expires_serialization
     [⟨gs "SID", gs "v", gs "a.com", gs "/", -1, false⟩] (fun _ => true)
     (recordLine ⟨gs "SID", gs "v", gs "a.com", gs "/", -1, false⟩) (by decide)⟩

/-- A `dropWhile` that keeps the whole list has a head that fails the
predicate. -/
theorem dropWhile_cons_self_head {p : Char → Bool} {a : Char} {l : List Char}
    (h : List.dropWhile p (a :: l) = a :: l) : p a = false := by
  by_cases hp : p a
  · exfalso
    rw [List.dropWhile_cons, if_pos hp] at h
    have hle := (List.dropWhile_sublist (l := l) p).length_le
    have := congrArg List.length h
    simp at this
    omega
  · simpa using hp

/-- A string equal to its own trim neither starts nor ends with white
space: both `dropWhile` passes are the identity on it. -/
theorem goTrim_eq_self_parts {s : List Char} (h : goTrim s = s) :
    s.dropWhile goIsSpace = s ∧ s.reverse.dropWhile goIsSpace = s.reverse := by
  unfold goTrim at h
  have hu := (List.dropWhile_sublist (l := s) goIsSpace).length_le
  have hv := (List.dropWhile_sublist (l := (s.dropWhile goIsSpace).reverse) goIsSpace).length_le
  have hlen := congrArg List.length h
  simp only [List.length_reverse] at hv hlen
  have huEq : s.dropWhile goIsSpace = s := by
    apply (List.dropWhile_sublist goIsSpace).eq_of_length
    omega
  refine ⟨huEq, ?_⟩
  rw [huEq] at h
  have := congrArg List.reverse h
  simpa using this

/-- Prepending a dot to a trimmed string yields a trimmed string. -/
theorem goTrim_cons_dot {s : List Char} (h : goTrim s = s) :
    goTrim ('.' :: s) = '.' :: s := by
  obtain ⟨h1, h2⟩ := goTrim_eq_self_parts h
  unfold goTrim
  have hdot : goIsSpace '.' = false := by decide
  rw [List.dropWhile_cons, if_neg (by simp [hdot])]
  have hrev : ('.' :: s).reverse = s.reverse ++ ['.'] := by simp
  rw [hrev]
  have hkeep : (s.reverse ++ ['.']).dropWhile goIsSpace = s.reverse ++ ['.'] := by
    cases hsr : s.reverse with
    | nil => simp [List.dropWhile_cons, hdot]
    | cons a t =>
      rw [hsr] at h2
      have ha := dropWhile_cons_self_head h2
      simp [List.dropWhile_cons, ha]
  rw [hkeep, List.reverse_append]
  simp

/-- C9 counterexample: a leading dot on the configured suffix changes the
match result — `AllowsCookieDomain` strips a leading dot from the cookie
domain only (video_platform.go:73), never from the configured suffix, so
suffix `".youtube.com"` rejects domain `"youtube.com"` while suffix
`"youtube.com"` accepts it. -/
theorem c9_counterexample_suffix_leading_dot :
    videoPlatform.AllowsCookieDomain
      ⟨gs "yt", gs "YouTube", [], [], [gs "youtube.com"], []⟩ (gs "youtube.com") = true
    ∧ videoPlatform.AllowsCookieDomain
      ⟨gs "yt", gs "YouTube", [], [], [gs ".youtube.com"], []⟩ (gs "youtube.com") = false := by
  constructor <;> decide

/-- C9 (amended): cookie-domain-suffix matching is case-insensitive in both
the cookie domain and the configured suffixes, and it ignores a single
leading dot on the cookie domain (for a trimmed domain not already starting
with a dot, prepending a dot leaves the result unchanged); a leading dot on
a configured suffix, however, is significant and is not ignored. -/
theorem c9_allowsCookieDomain_case_and_dot :
    (∀ (suffixes : List (List Char)) (domain : List Char),
      allowsCookieDomain suffixes (goToLower domain) = allowsCookieDomain suffixes domain)
    ∧ (∀ (suffixes : List (List Char)) (domain : List Char),
      allowsCookieDomain (suffixes.map goToLower) domain = allowsCookieDomain suffixes domain)
    ∧ (∀ (suffixes : List (List Char)) (domain : List Char),
      goTrim domain = domain → goStartsWith domain (gs ".") = false →
      allowsCookieDomain suffixes ('.' :: domain) = allowsCookieDomain suffixes domain)
    ∧ (allowsCookieDomain [gs "youtube.com"] (gs "youtube.com") = true
       ∧ allowsCookieDomain [gs ".youtube.com"] (gs "youtube.com") = false) := by
  refine ⟨fun suffixes domain => ?_, fun suffixes domain => ?_,
    fun suffixes domain h1 h2 => ?_, by constructor <;> decide⟩
  · unfold allowsCookieDomain
    rw [goTrim_goToLower, goToLower_goToLower]
  · unfold allowsCookieDomain
    have hemp : (suffixes.map goToLower).isEmpty = suffixes.isEmpty := by
      cases suffixes <;> rfl
    rw [hemp]
    have hany : ∀ d : List Char,
        ((suffixes.map goToLower).any fun s =>
          let ss := goToLower (goTrim s)
          if ss = [] then false else d == ss || goEndsWith d (gs "." ++ ss)) =
        (suffixes.any fun s =>
          let ss := goToLower (goTrim s)
          if ss = [] then false else d == ss || goEndsWith d (gs "." ++ ss)) := by
      intro d
      rw [List.any_map]
      congr 1
      funext s
      simp only [Function.comp_apply, goTrim_goToLower, goToLower_goToLower]
    simp only [hany]
  · unfold allowsCookieDomain
    have key : goTrimPrefixStr (goToLower (goTrim ('.' :: domain))) (gs ".") =
        goTrimPrefixStr (goToLower (goTrim domain)) (gs ".") := by
      rw [goTrim_cons_dot h1, h1]
      have hlow : goToLower ('.' :: domain) = '.' :: goToLower domain := by
        simp [goToLower]
      rw [hlow]
      have hL : goTrimPrefixStr ('.' :: goToLower domain) (gs ".") = goToLower domain := by
        unfold goTrimPrefixStr
        rw [if_pos]
        · rfl
        · show ('.' == '.' && List.isPrefixOf [] (goToLower domain)) = true
          simp [List.isPrefixOf]
      have hR : goTrimPrefixStr (goToLower domain) (gs ".") = goToLower domain := by
        unfold goTrimPrefixStr
        rw [if_neg]
        cases hd : domain with
        | nil => simp [goToLower, gs, List.isPrefixOf]
        | cons a t =>
          rw [hd] at h2
          have ha : a ≠ '.' := by
            intro hae
            rw [hae] at h2
            simp [goStartsWith, gs, List.isPrefixOf] at h2
          have ha' : Char.toLower a ≠ '.' := toLower_ne_dot ha
          simp [goToLower, gs, List.isPrefixOf]
          intro hcon
          exact absurd hcon.symm ha'
      rw [hL, hR]
    rw [key]

/-- C9 amended witness: the dot-prepending invariance applied to the
concrete trimmed, dot-free domain `youtube.com`. -/
theorem c9_allowsCookieDomain_case_and_dot_witness :
    goTrim (gs "youtube.com") = gs "youtube.com"
    ∧ goStartsWith (gs "youtube.com") (gs ".") = false
    ∧ allowsCookieDomain [gs "youtube.com"] ('.' :: gs "youtube.com") =
        allowsCookieDomain [gs "youtube.com"] (gs "youtube.com") :=
  ⟨by decide, by decide,
   c9_allowsCookieDomain_case_and_dot.2.2.1 [gs "youtube.com"] (gs "youtube.com")
     (by decide) (by decide)⟩

/-- C10 witness: the non-empty-suffix clause applied to a platform with one
configured suffix and a domain of white space only. -/
theorem c10_empty_suffix_list_behavior_witness :
    (⟨gs "yt", gs "YouTube", [], [], [gs "youtube.com"], []⟩ : videoPlatform).CookieDomainSuffixes ≠ []
    ∧ goTrim (gs "  ") = []
    ∧ videoPlatform.AllowsCookieDomain
        ⟨gs "yt", gs "YouTube", [], [], [gs "youtube.com"], []⟩ (gs "  ") = false :=
  ⟨by decide, by decide,
   c10_empty_suffix_list_behavior.2.1
     ⟨gs "yt", gs "YouTube", [], [], [gs "youtube.com"], []⟩ (gs "  ")
     (by decide) (by decide)⟩

/-! Helper lemmas on bits, big-endian encoding and masking. -/

/-- Setting a high bit and masking with a low mask recovers the low part. -/
theorem lor_two_pow_land_mask {j k n : Nat} (hjk : k ≤ j) (hn : n < 2 ^ k) :
    (2 ^ j ||| n) &&& (2 ^ k - 1) = n := by
  apply Nat.eq_of_testBit_eq
  intro i
  rw [Nat.testBit_land, Nat.testBit_lor, Nat.testBit_two_pow, Nat.testBit_two_pow_sub_one]
  by_cases hik : i < k
  · have hji : j ≠ i := by omega
    simp [hji, hik]
  · have : n < 2 ^ i := lt_of_lt_of_le hn (Nat.pow_le_pow_right (by omega) (by omega))
    simp [Nat.testBit_lt_two_pow this, hik]

/-- A value with a high bit set keeps that bit under the matching mask. -/
theorem lor_two_pow_land_self (j n : Nat) : (2 ^ j ||| n) &&& 2 ^ j = 2 ^ j := by
  apply Nat.eq_of_testBit_eq
  intro i
  rw [Nat.testBit_land, Nat.testBit_lor, Nat.testBit_two_pow]
  by_cases hji : j = i <;> simp [hji]

/-- Small values are unchanged by a low mask. -/
theorem land_mask_of_lt {k n : Nat} (hn : n < 2 ^ k) : n &&& (2 ^ k - 1) = n := by
  apply Nat.eq_of_testBit_eq
  intro i
  rw [Nat.testBit_land, Nat.testBit_two_pow_sub_one]
  by_cases hik : i < k
  · simp [hik]
  · have : n < 2 ^ i := lt_of_lt_of_le hn (Nat.pow_le_pow_right (by omega) (by omega))
    simp [Nat.testBit_lt_two_pow this, hik]

/-- Small values have no high bit. -/
theorem land_two_pow_of_lt {k n : Nat} (hn : n < 2 ^ k) : n &&& 2 ^ k = 0 := by
  apply Nat.eq_of_testBit_eq
  intro i
  rw [Nat.testBit_land, Nat.testBit_two_pow, Nat.zero_testBit]
  by_cases hki : k = i
  · subst hki
    simp [Nat.testBit_lt_two_pow hn]
  · simp [hki]

/-- Big-endian 16-bit round trip. -/
theorem beUint_putUint16 {n : Nat} (h : n < 65536) : beUint (putUint16 n) = n := by
  simp only [putUint16, beUint, List.foldl]
  omega

/-- Big-endian 64-bit round trip. -/
theorem beUint_putUint64 {n : Nat} (h : n < 2 ^ 64) : beUint (putUint64 n) = n := by
  simp only [putUint64, beUint, List.foldl]
  omega

/-- Masking preserves length. -/
theorem maskBytes_length (maskKey : List Nat) : ∀ (i : Nat) (payload : List Nat),
    (maskBytes maskKey i payload).length = payload.length := by
  intro i payload
  induction payload generalizing i with
  | nil => rfl
  | cons b rest ih => simp [maskBytes, ih]

/-- Masking twice with the same key and start index is the identity. -/
theorem maskBytes_maskBytes (maskKey : List Nat) : ∀ (i : Nat) (payload : List Nat),
    maskBytes maskKey i (maskBytes maskKey i payload) = payload := by
  intro i payload
  induction payload generalizing i with
  | nil => rfl
  | cons b rest ih =>
    simp only [maskBytes, ih, List.cons.injEq, and_true]
    exact Nat.xor_cancel_right _ _

/-- Reading back exactly the bytes just prepended. -/
theorem readBytes_append (l r : List Nat) : readBytes l.length (l ++ r) = some (l, r) := by
  induction l with
  | nil => rfl
  | cons b rest ih => simp [readBytes, ih]

/-- Literal form: a 7-bit value has no `0x80` bit. -/
theorem land_128_eq_zero {n : Nat} (h : n < 128) : n &&& 128 = 0 := by
  have := land_two_pow_of_lt (k := 7) (n := n) (by omega)
  simpa using this

/-- Literal form: a 7-bit value is unchanged by `&&& 0x7f`. -/
theorem land_127_eq_self {n : Nat} (h : n < 128) : n &&& 127 = n := by
  have := land_mask_of_lt (k := 7) (n := n) (by omega)
  simpa using this

/-- Literal form: extracting the length bits of a masked length byte. -/
theorem lor_128_land_127 {n : Nat} (h : n < 128) : (128 ||| n) &&& 127 = n := by
  have := lor_two_pow_land_mask (j := 7) (k := 7) (n := n) (le_refl 7) (by omega)
  simpa using this

/-- Literal form: extracting the opcode bits of a FIN-marked opcode byte. -/
theorem lor_128_land_15 {n : Nat} (h : n < 16) : (128 ||| n) &&& 15 = n := by
  have := lor_two_pow_land_mask (j := 7) (k := 4) (n := n) (by omega) (by omega)
  simpa using this

/-- Literal form: the mask bit of a masked length byte is set. -/
theorem lor_128_land_128 (n : Nat) : (128 ||| n) &&& 128 = 128 := by
  have := lor_two_pow_land_self 7 n
  simpa using this

/-- Unmasked simple-length frames are read without unmasking. -/
theorem readFrame_unmasked (b0 : Nat) (payload rest : List Nat)
    (h : payload.length ≤ 125) :
    readFrame (b0 :: payload.length :: (payload ++ rest)) =
      some (b0 &&& 0x0f, payload, rest) := by
  have hm : payload.length &&& 128 = 0 := land_128_eq_zero (by omega)
  have h7 : payload.length &&& 127 = payload.length := land_127_eq_self (by omega)
  simp only [readFrame, hm, h7]
  rw [if_neg (by omega), if_neg (by omega)]
  simp only [bne_self_eq_false, Bool.false_eq_true, if_false, readBytes_append]

/-- Masked simple-length frames are unmasked with the frame's mask key. -/
theorem readFrame_masked (b0 : Nat) (maskKey payload rest : List Nat)
    (h : payload.length ≤ 125) (hkey : maskKey.length = 4) :
    readFrame (b0 :: (0x80 ||| payload.length) :: (maskKey ++ payload ++ rest)) =
      some (b0 &&& 0x0f, maskBytes maskKey 0 payload, rest) := by
  have hm : (128 ||| payload.length) &&& 128 = 128 := lor_128_land_128 _
  have h7 : (128 ||| payload.length) &&& 127 = payload.length :=
    lor_128_land_127 (by omega)
  simp only [readFrame, hm, h7]
  rw [if_neg (by omega), if_neg (by omega)]
  have h4 : readBytes 4 (maskKey ++ (payload ++ rest)) = some (maskKey, payload ++ rest) := by
    rw [← hkey, readBytes_append]
  simp only [List.append_assoc, bne_iff_ne, ne_eq, OfNat.ofNat_ne_zero, not_false_eq_true,
    if_true, h4, readBytes_append]

/-- Reading back a client-written frame recovers opcode and payload. -/
theorem readFrame_writeFrame (opcode : Nat) (maskKey payload rest : List Nat)
    (hop : opcode < 16) (hkey : maskKey.length = 4)
    (hlen : payload.length ≤ 10 * 1024 * 1024) :
    readFrame (writeFrame opcode maskKey payload ++ rest) = some (opcode, payload, rest) := by
  have hmasked : (maskBytes maskKey 0 payload).length = payload.length :=
    maskBytes_length maskKey 0 payload
  have hop15 : (128 ||| opcode) &&& 15 = opcode := lor_128_land_15 hop
  have hkeyRead : ∀ tail, readBytes 4 (maskKey ++ tail) = some (maskKey, tail) := by
    intro tail
    rw [← hkey, readBytes_append]
  have hpayloadRead : ∀ tail, readBytes payload.length (maskBytes maskKey 0 payload ++ tail) =
      some (maskBytes maskKey 0 payload, tail) := by
    intro tail
    rw [← hmasked, readBytes_append]
  by_cases h125 : payload.length ≤ 125
  · have hm : (128 ||| payload.length) &&& 128 = 128 := lor_128_land_128 _
    have h7 : (128 ||| payload.length) &&& 127 = payload.length := lor_128_land_127 (by omega)
    simp only [writeFrame, if_pos h125, List.cons_append, List.append_assoc]
    simp only [readFrame, hm, h7, hop15]
    rw [if_neg (by omega), if_neg (by omega)]
    simp only [List.nil_append, bne_iff_ne, ne_eq, OfNat.ofNat_ne_zero, not_false_eq_true,
      if_true, hkeyRead, hpayloadRead, maskBytes_maskBytes]
  · by_cases h65535 : payload.length ≤ 65535
    · have hb1 : (128 ||| 126 : Nat) = 254 := by decide
      have hm : (254 : Nat) &&& 128 = 128 := by decide
      have h7 : (254 : Nat) &&& 127 = 126 := by decide
      have hext : readBytes 2 (putUint16 payload.length ++
          (maskKey ++ (maskBytes maskKey 0 payload ++ rest))) =
          some (putUint16 payload.length, maskKey ++ (maskBytes maskKey 0 payload ++ rest)) := by
        have : (putUint16 payload.length).length = 2 := rfl
        rw [← this, readBytes_append]
      have hbe : beUint (putUint16 payload.length) = payload.length :=
        beUint_putUint16 (by omega)
      simp only [writeFrame, if_neg h125, if_pos h65535, hb1, List.cons_append,
        List.append_assoc]
      simp only [readFrame, hm, h7, hop15]
      simp only [List.nil_append, hext, hbe, bne_iff_ne, ne_eq, OfNat.ofNat_ne_zero,
        not_false_eq_true, if_true, hkeyRead, hpayloadRead, maskBytes_maskBytes]
    · have hb1 : (128 ||| 127 : Nat) = 255 := by decide
      have hm : (255 : Nat) &&& 128 = 128 := by decide
      have h7 : (255 : Nat) &&& 127 = 127 := by decide
      have hext : readBytes 8 (putUint64 payload.length ++
          (maskKey ++ (maskBytes maskKey 0 payload ++ rest))) =
          some (putUint64 payload.length, maskKey ++ (maskBytes maskKey 0 payload ++ rest)) := by
        have : (putUint64 payload.length).length = 8 := rfl
        rw [← this, readBytes_append]
      have hbe : beUint (putUint64 payload.length) = payload.length :=
        beUint_putUint64 (by omega)
      simp only [writeFrame, if_neg h125, if_neg h65535, hb1, List.cons_append,
        List.append_assoc]
      simp only [readFrame, hm, h7, hop15]
      have hno : ¬ payload.length > 10 * 1024 * 1024 := by omega
      simp only [List.nil_append, hext, hbe, hno, bne_iff_ne, ne_eq, OfNat.ofNat_ne_zero,
        not_false_eq_true, if_true, if_false, hkeyRead, hpayloadRead, maskBytes_maskBytes]
      simp [hext, hbe, hno, hkeyRead, hpayloadRead, maskBytes_maskBytes]

/-- C3: every client-written frame has the mask bit of its second header
byte set and ships its payload XOR-masked with the 4-byte mask key; on
read, a frame with the mask bit clear is returned unchanged while one with
the mask bit set is unmasked with its mask key; reading back a
client-written frame yields the original payload. -/
theorem c3_frame_masking_and_roundtrip :
    (∀ (opcode : Nat) (maskKey payload : List Nat),
      ((writeFrame opcode maskKey payload).getD 1 0) &&& 0x80 = 0x80
      ∧ ∃ header, writeFrame opcode maskKey payload =
          header ++ maskKey ++ maskBytes maskKey 0 payload)
    ∧ (∀ (b0 : Nat) (payload rest : List Nat), payload.length ≤ 125 →
      readFrame (b0 :: payload.length :: (payload ++ rest)) =
        some (b0 &&& 0x0f, payload, rest))
    ∧ (∀ (b0 : Nat) (maskKey payload rest : List Nat),
      payload.length ≤ 125 → maskKey.length = 4 →
      readFrame (b0 :: (0x80 ||| payload.length) :: (maskKey ++ payload ++ rest)) =
        some (b0 &&& 0x0f, maskBytes maskKey 0 payload, rest))
    ∧ (∀ (opcode : Nat) (maskKey payload rest : List Nat),
      opcode < 16 → maskKey.length = 4 → payload.length ≤ 10 * 1024 * 1024 →
      readFrame (writeFrame opcode maskKey payload ++ rest) = some (opcode, payload, rest)) := by
  refine ⟨fun opcode maskKey payload => ⟨?_, ?_⟩, readFrame_unmasked, readFrame_masked,
    readFrame_writeFrame⟩
  · unfold writeFrame
    by_cases h125 : payload.length ≤ 125
    · simp only [if_pos h125, List.cons_append, List.getD_cons_succ, List.getD_cons_zero]
      exact lor_128_land_128 _
    · by_cases h65535 : payload.length ≤ 65535
      · simp only [if_neg h125, if_pos h65535, List.cons_append, List.getD_cons_succ,
          List.getD_cons_zero]
        exact lor_128_land_128 _
      · simp only [if_neg h125, if_neg h65535, List.cons_append, List.getD_cons_succ,
          List.getD_cons_zero]
        exact lor_128_land_128 _
  · exact ⟨_, rfl⟩

/-- C3 witness: the round trip applied to a concrete masked text frame. -/
theorem c3_frame_masking_and_roundtrip_witness :
    (1 : Nat) < 16 ∧ ([7, 11, 13, 17] : List Nat).length = 4
    ∧ ([104, 105, 33] : List Nat).length ≤ 10 * 1024 * 1024
    ∧ readFrame (writeFrame 1 [7, 11, 13, 17] [104, 105, 33] ++ [255]) =
        some (1, [104, 105, 33], [255]) :=
  ⟨by decide, by decide, by decide,
   c3_frame_masking_and_roundtrip.2.2.2 1 [7, 11, 13, 17] [104, 105, 33] [255]
     (by decide) (by decide) (by decide)⟩

/-- C4: the `cdpClient.Call` reply loop skips unparsable frames and
envelopes whose id differs from the awaited one (a missing id decodes to 0,
and call ids start at 1), stops at the first envelope with the awaited id,
fails with `method: message` when its error field is present, and otherwise
hands the raw result to the caller; in particular an id-less event envelope
followed by the awaited response with id 5 yields that response's result. -/
theorem c4_cdp_call_id_correlation :
    (∀ (method : List Char) (id : Nat) (msgs : List cdpMessage),
      cdpCall method id (cdpMessage.unparsable :: msgs) = cdpCall method id msgs)
    ∧ (∀ (method : List Char) (id i : Nat) (err : Option (List Char))
        (res : Option (List Char)) (msgs : List cdpMessage), i ≠ id →
      cdpCall method id (cdpMessage.envelope i err res :: msgs) = cdpCall method id msgs)
    ∧ (∀ (method : List Char) (id : Nat) (m : List Char) (res : Option (List Char))
        (msgs : List cdpMessage),
      cdpCall method id (cdpMessage.envelope id (some m) res :: msgs) =
        callResult.callErr (method ++ gs ": " ++ m))
    ∧ (∀ (method : List Char) (id : Nat) (res : Option (List Char)) (msgs : List cdpMessage),
      cdpCall method id (cdpMessage.envelope id none res :: msgs) = callResult.ok res)
    ∧ cdpCall (gs "Network.getAllCookies") 5
        [cdpMessage.envelope 0 none none, cdpMessage.envelope 5 none (some (gs "cookies"))] =
        callResult.ok (some (gs "cookies")) := by
  refine ⟨fun method id msgs => rfl, fun method id i err res msgs hne => ?_,
    fun method id m res msgs => ?_, fun method id res msgs => ?_, by decide⟩
  · simp [cdpCall, hne]
  · simp [cdpCall]
  · simp [cdpCall]

/-- C4 witness: the skip clause applied at the concrete ids 3 ≠ 5. -/
theorem c4_cdp_call_id_correlation_witness :
    (3 : Nat) ≠ 5
    ∧ cdpCall (gs "Network.enable") 5 [cdpMessage.envelope 3 none none] =
        cdpCall (gs "Network.enable") 5 [] :=
  ⟨by decide,
   c4_cdp_call_id_correlation.2.1 (gs "Network.enable") 5 3 none none [] (by decide)⟩

/-- Scanning a concatenation: guard the prefix, then guard the suffix from
the accumulated state. -/
theorem promotionsGuarded_append (a : List authEvent) : ∀ (b : List authEvent)
    (temps oks : List jarId),
    promotionsGuarded temps oks (a ++ b) =
      (promotionsGuarded temps oks a &&
       promotionsGuarded (tempsAfter temps a) (oksAfter oks a) b) := by
  induction a with
  | nil => intro b temps oks; simp [promotionsGuarded, tempsAfter, oksAfter]
  | cons e rest ih =>
    intro b temps oks
    cases e with
    | cachedAttempt code => simp [promotionsGuarded, tempsAfter, oksAfter, ih]
    | sourceAttempt i browser code => simp [promotionsGuarded, tempsAfter, oksAfter, ih]
    | cdpAttempt i code => simp [promotionsGuarded, tempsAfter, oksAfter, ih]
    | createTempJar j => simp [promotionsGuarded, tempsAfter, oksAfter, ih]
    | heuristicCheck j ok =>
      cases ok <;> simp [promotionsGuarded, tempsAfter, oksAfter, ih]
    | promoteCache j =>
      simp [promotionsGuarded, tempsAfter, oksAfter, ih, Bool.and_assoc]

/-- Traces that are guarded from every starting state compose. -/
theorem promotionsGuarded_all_append {a b : List authEvent}
    (ha : ∀ temps oks, promotionsGuarded temps oks a = true)
    (hb : ∀ temps oks, promotionsGuarded temps oks b = true) :
    ∀ temps oks, promotionsGuarded temps oks (a ++ b) = true := by
  intro temps oks
  rw [promotionsGuarded_append]
  simp [ha, hb]

/-- The CDP fallback's trace is promotion-guarded from every state: its
temp jar is written and its heuristic check passes before any promotion. -/
theorem tryCDP_guarded (platform : videoPlatform) (cache : List Char) (env : cdpEnv)
    (j : jarId) : ∀ temps oks,
    promotionsGuarded temps oks (tryDownloadWithChromeCDP platform cache env j).2 = true := by
  intro temps oks
  unfold tryDownloadWithChromeCDP
  by_cases h1 : env.chromeFound <;> simp only [h1, Bool.not_true, Bool.not_false, if_true,
    if_false, Bool.false_eq_true, promotionsGuarded]
  by_cases h2 : env.profileDirOk <;> simp only [h2, Bool.not_true, Bool.not_false, if_true,
    if_false, Bool.false_eq_true, promotionsGuarded]
  by_cases h3 : env.exportOk <;> simp only [h3, Bool.not_true, Bool.not_false, if_true,
    if_false, Bool.false_eq_true, promotionsGuarded]
  by_cases h4 : looksLikeLoggedIn env.cookies platform <;>
    by_cases h5 : goTrim cache ≠ [] <;>
      simp [h4, h5, promotionsGuarded]

/-- One source iteration's trace is promotion-guarded from every state. -/
theorem srcIterTrace_guarded (env : fallbackEnv) (src : authSource) (i : Nat) :
    ∀ temps oks, promotionsGuarded temps oks (srcIterTrace env src i) = true := by
  intro temps oks
  unfold srcIterTrace srcPromoTrace
  by_cases hT : (!(goTrim env.cookieFile == []) && src.Kind == authKind.browser)
      && env.tempCreateOk i
  · simp only [hT, if_true]
    by_cases hE : env.tmpFileExists i <;>
      by_cases hC : goTrim env.cookieFile == [] <;>
        by_cases hF : env.tmpFilterOk i <;>
          rcases hA : env.tmpAuthResult i with _ | b <;>
            first
            | (cases b <;> simp [hT, hE, hC, hF, hA, promotionsGuarded])
            | simp [hT, hE, hC, hF, hA, promotionsGuarded]
  · simp only [hT, if_false, Bool.false_and, Bool.false_eq_true]
    simp [promotionsGuarded]

/-- Every trace produced by the source loop is promotion-guarded from every
state. -/
theorem fallbackLoop_guarded (platform : videoPlatform) (env : fallbackEnv) :
    ∀ (sources : List authSource) (i last : Nat) (temps oks : List jarId),
    promotionsGuarded temps oks (fallbackLoop platform env sources i last).2 = true := by
  intro sources
  induction sources with
  | nil => intro i last temps oks; simp [fallbackLoop, promotionsGuarded]
  | cons src rest ih =>
    intro i last temps oks
    have hmarker : ∀ (c : Nat) (temps oks : List jarId),
        promotionsGuarded temps oks [authEvent.cdpAttempt i c] = true := by
      intro c temps oks
      simp [promotionsGuarded]
    have htr2 := srcIterTrace_guarded env src i
    have hcdpTrace : ∀ (c : Nat) (temps oks : List jarId),
        promotionsGuarded temps oks
          (srcIterTrace env src i ++ authEvent.cdpAttempt i c ::
            (tryDownloadWithChromeCDP platform env.cookieFile (env.cdp i)
              (jarId.cdpTemp i)).2) = true := by
      intro c
      have : authEvent.cdpAttempt i c ::
          (tryDownloadWithChromeCDP platform env.cookieFile (env.cdp i) (jarId.cdpTemp i)).2 =
          [authEvent.cdpAttempt i c] ++
          (tryDownloadWithChromeCDP platform env.cookieFile (env.cdp i) (jarId.cdpTemp i)).2 := rfl
      rw [this]
      exact promotionsGuarded_all_append htr2
        (promotionsGuarded_all_append (hmarker c)
          (tryCDP_guarded platform env.cookieFile (env.cdp i) (jarId.cdpTemp i)))
    simp only [fallbackLoop]
    split
    · exact htr2 temps oks
    · split
      · split
        · exact hcdpTrace _ temps oks
        · repeat' split
          all_goals
            first
              | exact promotionsGuarded_all_append (hcdpTrace _) (fun t o => ih _ _ t o) temps oks
              | exact hcdpTrace _ temps oks
      · repeat' split
        all_goals
          first
            | exact promotionsGuarded_all_append htr2 (fun t o => ih _ _ t o) temps oks
            | exact htr2 temps oks

/-- C2: in every run of the auth orchestrator — and in every standalone CDP
fallback — the persistent cookie cache is promoted to only for a jar whose
temp file was created earlier in the run and whose authenticated-cookie
heuristic check returned true earlier in the run; an unauthenticated
extraction never replaces the persistent cache. -/
theorem c2_promotion_only_after_heuristic :
    (∀ (platform : videoPlatform) (env : fallbackEnv) (sources : List authSource),
      promotionsGuarded [] [] (runWithAuthFallback platform env sources).2 = true)
    ∧ (∀ (platform : videoPlatform) (cache : List Char) (env : cdpEnv) (j : jarId),
      promotionsGuarded [] [] (tryDownloadWithChromeCDP platform cache env j).2 = true) := by
  refine ⟨fun platform env sources => ?_, fun platform cache env j =>
    tryCDP_guarded platform cache env j [] []⟩
  unfold runWithAuthFallback
  have hloop := fallbackLoop_guarded platform env sources 0 exitDownloadFailed
  by_cases hs : sources.isEmpty <;>
    by_cases hc : goTrim env.cookieFile ≠ [] <;>
      by_cases hok : env.cachedRunCode = exitOK <;>
        by_cases hnext : shouldTryNextAuth env.cachedRunCode <;>
          simp [hs, hc, hok, hnext, promotionsGuarded, hloop]

/-- `shouldTryNextAuth` holds exactly for the two retryable codes. -/
theorem shouldTryNextAuth_iff (code : Nat) :
    shouldTryNextAuth code = true ↔ code = 20 ∨ code = 21 := by
  simp [shouldTryNextAuth, exitAuthRequired, exitCookieProblem]

/-- The attempt projection distributes over concatenation. -/
theorem attemptsOf_append (a b : List authEvent) :
    attemptsOf (a ++ b) = attemptsOf a ++ attemptsOf b :=
  List.filterMap_append a b _

/-- The CDP fallback emits no attempt markers of its own. -/
theorem attemptsOf_tryCDP (platform : videoPlatform) (cache : List Char) (env : cdpEnv)
    (j : jarId) : attemptsOf (tryDownloadWithChromeCDP platform cache env j).2 = [] := by
  unfold tryDownloadWithChromeCDP
  by_cases h1 : env.chromeFound <;>
    by_cases h2 : env.profileDirOk <;>
      by_cases h3 : env.exportOk <;>
        by_cases h4 : looksLikeLoggedIn env.cookies platform <;>
          by_cases h5 : goTrim cache ≠ [] <;>
            simp [h1, h2, h3, h4, h5, attemptsOf]

/-- A single-source iteration with no cache path, a retryable run code and
a non-chrome browser ends the loop with "authentication required". -/
theorem fallbackLoop_single_firefox (platform : videoPlatform) (env : fallbackEnv)
    (last : Nat) (hcf : goTrim env.cookieFile = [])
    (h1 : shouldTryNextAuth (env.runCode 1) = true) :
    fallbackLoop platform env [⟨authKind.browser, gs "firefox"⟩] 1 last =
      (exitAuthRequired, [authEvent.sourceAttempt 1 (gs "firefox") (env.runCode 1)]) := by
  have h1' := (shouldTryNextAuth_iff _).mp h1
  have hne : ¬ env.runCode 1 = exitOK := by
    simp only [exitOK]
    omega
  have hval : ¬ (gs "firefox" = gs "chrome") := by decide
  simp [fallbackLoop, srcIterTrace, srcPromoTrace, hcf, hne, hval, h1]

/-- C5: with sources `[chrome, firefox]`, no usable cookie cache, and a
retryable failure from the chrome source, exactly one Chrome-CDP attempt
happens after the chrome attempt and before the firefox attempt; with the
CDP attempt and firefox also failing retryably, the outward result is
`exitAuthRequired` (20). -/
theorem c5_fallback_ordering (platform : videoPlatform) (env : fallbackEnv)
    (hcf : goTrim env.cookieFile = [])
    (h0 : shouldTryNextAuth (env.runCode 0) = true)
    (hcdp : shouldTryNextAuth
      (tryDownloadWithChromeCDP platform env.cookieFile (env.cdp 0) (jarId.cdpTemp 0)).1 = true)
    (h1 : shouldTryNextAuth (env.runCode 1) = true) :
    (runWithAuthFallback platform env
        [⟨authKind.browser, gs "chrome"⟩, ⟨authKind.browser, gs "firefox"⟩]).1 =
      exitAuthRequired
    ∧ attemptsOf (runWithAuthFallback platform env
        [⟨authKind.browser, gs "chrome"⟩, ⟨authKind.browser, gs "firefox"⟩]).2 =
      [attemptKind.src (gs "chrome") (env.runCode 0),
       attemptKind.cdp (tryDownloadWithChromeCDP platform env.cookieFile (env.cdp 0)
         (jarId.cdpTemp 0)).1,
       attemptKind.src (gs "firefox") (env.runCode 1)] := by
  have h0' := (shouldTryNextAuth_iff _).mp h0
  have hcdp' := (shouldTryNextAuth_iff _).mp hcdp
  have hne0 : ¬ env.runCode 0 = exitOK := by
    simp only [exitOK]
    omega
  have hnecdp : ¬ (tryDownloadWithChromeCDP platform env.cookieFile (env.cdp 0)
      (jarId.cdpTemp 0)).1 = exitOK := by
    simp only [exitOK]
    omega
  have hcode2 : (if (tryDownloadWithChromeCDP platform env.cookieFile (env.cdp 0)
        (jarId.cdpTemp 0)).1 = exitAuthRequired then exitAuthRequired
      else if (tryDownloadWithChromeCDP platform env.cookieFile (env.cdp 0)
        (jarId.cdpTemp 0)).1 = exitCookieProblem then exitCookieProblem
      else env.runCode 0) =
      (tryDownloadWithChromeCDP platform env.cookieFile (env.cdp 0) (jarId.cdpTemp 0)).1 := by
    rcases hcdp' with h | h <;> simp [h, exitAuthRequired, exitCookieProblem]
  have hloop : fallbackLoop platform env
      [⟨authKind.browser, gs "chrome"⟩, ⟨authKind.browser, gs "firefox"⟩] 0 exitDownloadFailed =
      ((fallbackLoop platform env [⟨authKind.browser, gs "firefox"⟩] 1
          (tryDownloadWithChromeCDP platform env.cookieFile (env.cdp 0) (jarId.cdpTemp 0)).1).1,
        [authEvent.sourceAttempt 0 (gs "chrome") (env.runCode 0)] ++
        authEvent.cdpAttempt 0 (tryDownloadWithChromeCDP platform env.cookieFile (env.cdp 0)
          (jarId.cdpTemp 0)).1 ::
        (tryDownloadWithChromeCDP platform env.cookieFile (env.cdp 0) (jarId.cdpTemp 0)).2 ++
        (fallbackLoop platform env [⟨authKind.browser, gs "firefox"⟩] 1
          (tryDownloadWithChromeCDP platform env.cookieFile (env.cdp 0) (jarId.cdpTemp 0)).1).2) := by
    simp only [fallbackLoop]
    rw [if_neg hne0, if_pos ⟨by trivial, by trivial, h0⟩, if_neg hnecdp, hcode2]
    rw [if_pos ⟨by simp, hcdp⟩]
    simp [srcIterTrace, srcPromoTrace, hcf]
  have hff := fallbackLoop_single_firefox platform env
    (tryDownloadWithChromeCDP platform env.cookieFile (env.cdp 0) (jarId.cdpTemp 0)).1 hcf h1
  have hrun : runWithAuthFallback platform env
      [⟨authKind.browser, gs "chrome"⟩, ⟨authKind.browser, gs "firefox"⟩] =
      fallbackLoop platform env
        [⟨authKind.browser, gs "chrome"⟩, ⟨authKind.browser, gs "firefox"⟩] 0
        exitDownloadFailed := by
    simp [runWithAuthFallback, hcf]
  rw [hrun, hloop, hff]
  refine ⟨rfl, ?_⟩
  have hr2 := attemptsOf_tryCDP platform env.cookieFile (env.cdp 0) (jarId.cdpTemp 0)
  have hcons : attemptsOf (authEvent.cdpAttempt 0
      (tryDownloadWithChromeCDP platform env.cookieFile (env.cdp 0) (jarId.cdpTemp 0)).1 ::
      (tryDownloadWithChromeCDP platform env.cookieFile (env.cdp 0) (jarId.cdpTemp 0)).2) =
      attemptKind.cdp (tryDownloadWithChromeCDP platform env.cookieFile (env.cdp 0)
        (jarId.cdpTemp 0)).1 :: attemptsOf (tryDownloadWithChromeCDP platform env.cookieFile
        (env.cdp 0) (jarId.cdpTemp 0)).2 := by
    simp [attemptsOf]
  rw [attemptsOf_append, attemptsOf_append, hcons, hr2]
  simp [attemptsOf]

/-- C5 witness: the fallback-ordering theorem applied to a concrete
environment in which chrome, the CDP fallback (Chrome not found) and
firefox all fail retryably. -/
theorem c5_fallback_ordering_witness :
    goTrim envAllRetryable.cookieFile = []
    ∧ shouldTryNextAuth (envAllRetryable.runCode 0) = true
    ∧ shouldTryNextAuth (tryDownloadWithChromeCDP ytPlatform envAllRetryable.cookieFile
        (envAllRetryable.cdp 0) (jarId.cdpTemp 0)).1 = true
    ∧ shouldTryNextAuth (envAllRetryable.runCode 1) = true
    ∧ ((runWithAuthFallback ytPlatform envAllRetryable
          [⟨authKind.browser, gs "chrome"⟩, ⟨authKind.browser, gs "firefox"⟩]).1 =
        exitAuthRequired
      ∧ attemptsOf (runWithAuthFallback ytPlatform envAllRetryable
          [⟨authKind.browser, gs "chrome"⟩, ⟨authKind.browser, gs "firefox"⟩]).2 =
        [attemptKind.src (gs "chrome") (envAllRetryable.runCode 0),
         attemptKind.cdp (tryDownloadWithChromeCDP ytPlatform envAllRetryable.cookieFile
           (envAllRetryable.cdp 0) (jarId.cdpTemp 0)).1,
         attemptKind.src (gs "firefox") (envAllRetryable.runCode 1)]) :=
  ⟨by decide, by decide, by decide, by decide,
   c5_fallback_ordering ytPlatform envAllRetryable (by decide) (by decide) (by decide)
     (by decide)⟩

/-- C6 counterexample: with Chrome's executable missing (BrowserNotFound)
during the CDP fallback, the orchestrator does not stop — the CDP attempt
returns `exitCookieProblem` (21), which `shouldTryNextAuth` treats as
retryable, and the firefox source is still attempted afterwards. -/
theorem c6_counterexample_browser_not_found_not_terminal :
    (envChromeNotFound.cdp 0).chromeFound = false
    ∧ (tryDownloadWithChromeCDP ytPlatform envChromeNotFound.cookieFile
        (envChromeNotFound.cdp 0) (jarId.cdpTemp 0)).1 = exitCookieProblem
    ∧ attemptsOf (runWithAuthFallback ytPlatform envChromeNotFound
        [⟨authKind.browser, gs "chrome"⟩, ⟨authKind.browser, gs "firefox"⟩]).2 =
      [attemptKind.src (gs "chrome") exitAuthRequired,
       attemptKind.cdp exitCookieProblem,
       attemptKind.src (gs "firefox") exitDownloadFailed] := by
  refine ⟨rfl, by decide, by decide⟩

/-- With no cookie cache, a single non-chrome source iteration always
leaves exactly its own attempt marker in the trace. -/
theorem fallbackLoop_single_firefox_trace (platform : videoPlatform) (env : fallbackEnv)
    (last : Nat) (hcf : goTrim env.cookieFile = []) :
    (fallbackLoop platform env [⟨authKind.browser, gs "firefox"⟩] 1 last).2 =
      [authEvent.sourceAttempt 1 (gs "firefox") (env.runCode 1)] := by
  have hval : ¬ (gs "firefox" = gs "chrome") := by decide
  by_cases hok : env.runCode 1 = exitOK <;>
    by_cases hnext : shouldTryNextAuth (env.runCode 1) = true <;>
      simp [fallbackLoop, srcIterTrace, srcPromoTrace, hcf, hok, hval, hnext]

/-- C6 (amended): a BrowserNotFound failure during the Chrome-CDP fallback
is reported as `exitCookieProblem` (21), which is retryable, so the
orchestrator does not stop: the next configured source (firefox) is still
attempted. -/
theorem c6_browser_not_found_is_retryable (platform : videoPlatform) (env : fallbackEnv)
    (hcf : goTrim env.cookieFile = [])
    (h0 : shouldTryNextAuth (env.runCode 0) = true)
    (hnf : (env.cdp 0).chromeFound = false) :
    (tryDownloadWithChromeCDP platform env.cookieFile (env.cdp 0) (jarId.cdpTemp 0)).1 =
      exitCookieProblem
    ∧ attemptsOf (runWithAuthFallback platform env
        [⟨authKind.browser, gs "chrome"⟩, ⟨authKind.browser, gs "firefox"⟩]).2 =
      [attemptKind.src (gs "chrome") (env.runCode 0),
       attemptKind.cdp exitCookieProblem,
       attemptKind.src (gs "firefox") (env.runCode 1)] := by
  have hr : tryDownloadWithChromeCDP platform env.cookieFile (env.cdp 0) (jarId.cdpTemp 0) =
      (exitCookieProblem, []) := by
    simp [tryDownloadWithChromeCDP, hnf]
  have h0' := (shouldTryNextAuth_iff _).mp h0
  have hne0 : ¬ env.runCode 0 = exitOK := by
    simp only [exitOK]
    omega
  have e1 : ¬ ((exitCookieProblem : Nat) = exitAuthRequired) := by decide
  have e2 : shouldTryNextAuth exitCookieProblem = true := by decide
  have e3 : ¬ ((exitCookieProblem : Nat) = exitOK) := by decide
  have hval : ¬ (gs "firefox" = gs "chrome") := by decide
  refine ⟨by rw [hr], ?_⟩
  by_cases hok1 : env.runCode 1 = exitOK <;>
    by_cases hnext1 : shouldTryNextAuth (env.runCode 1) = true <;>
      simp [runWithAuthFallback, fallbackLoop, srcIterTrace, srcPromoTrace, hcf, hr, hne0, h0,
        e1, e2, e3, hval, hok1, hnext1, attemptsOf, attemptsOf_append]

/-- C6 amended witness: the theorem applied to the concrete
chrome-not-found environment. -/
theorem c6_browser_not_found_is_retryable_witness :
    goTrim envChromeNotFound.cookieFile = []
    ∧ shouldTryNextAuth (envChromeNotFound.runCode 0) = true
    ∧ (envChromeNotFound.cdp 0).chromeFound = false
    ∧ ((tryDownloadWithChromeCDP ytPlatform envChromeNotFound.cookieFile
        (envChromeNotFound.cdp 0) (jarId.cdpTemp 0)).1 = exitCookieProblem
      ∧ attemptsOf (runWithAuthFallback ytPlatform envChromeNotFound
          [⟨authKind.browser, gs "chrome"⟩, ⟨authKind.browser, gs "firefox"⟩]).2 =
        [attemptKind.src (gs "chrome") (envChromeNotFound.runCode 0),
         attemptKind.cdp exitCookieProblem,
         attemptKind.src (gs "firefox") (envChromeNotFound.runCode 1)]) :=
  ⟨by decide, by decide, by decide,
   c6_browser_not_found_is_retryable ytPlatform envChromeNotFound (by decide) (by decide)
     (by decide)⟩
